import Mathlib

/-!
Verification development for the OnkoDICOM batch-processing core:
`src/Model/LoadPatients.py` (natural sort + dataset discovery) and
`src/Model/batchprocessing/BatchProcessDVH2CSV.py` (the DVH-to-CSV export
pipeline).  Python code is shallowly embedded: pure functions become Lean
functions, the stateful pipeline becomes a pure function over an explicit
argument/output record, machine-independent Python ints become Nat and the
float values flowing through the DVH rows become Rat.
-/

/-! ## Natural sort (LoadPatients.natural_sort)

`natural_sort` sorts with key
`alphanum_key key = [convChunk c for c in re.split('([0-9]+)', key)]` where
`convChunk text = int(text) if text.isdigit() else text.lower()`.

`re.split('([0-9]+)', s)` returns the maximal runs of digit and non-digit
characters of `s`, in order, with an empty string inserted before a leading
digit run and after a trailing digit run (and `['']` for the empty string),
so that the result always alternates text, digits, text, ..., text.
We model a run list by `splitRuns` (maximal runs tagged with `Char.isDigit`,
no empty runs) and add the empty-edge chunks with `frontPad`/`backPad`.
Strings are compared as Python does, lexicographically by code point;
the model is exact for ASCII data (Python's `str.isdigit`/`str.lower` and
the regex class `[0-9]` agree with `Char.isDigit`/`Char.toLower` there). -/

/-- A converted chunk of `re.split('([0-9]+)', key)`: digit chunks become
Python ints, other chunks become lower-cased text. -/
inductive Chunk where
  | int (n : ℕ)
  | str (s : List Char)
deriving DecidableEq, Repr

/-- Three-way comparison of Python ints (here: naturals). -/
def natCompare (m n : ℕ) : Ordering :=
  if m < n then Ordering.lt else if m = n then Ordering.eq else Ordering.gt

/-- Python string comparison: lexicographic by code point. -/
def charsCompare : List Char → List Char → Ordering
  | [], [] => Ordering.eq
  | [], _ :: _ => Ordering.lt
  | _ :: _, [] => Ordering.gt
  | a :: as, b :: bs =>
    if a < b then Ordering.lt else if b < a then Ordering.gt else charsCompare as bs

/-- Comparison of two key chunks.  In the alphanum keys produced by
`natural_sort` the chunk kinds are aligned (both lists alternate starting
with a text chunk), so the mixed cases never arise between two keys; they
are completed with "digit run sorts before text run", which is exactly the
behaviour forced by the empty edge chunks (`'' < t` for nonempty `t`). -/
def partCompare : Chunk → Chunk → Ordering
  | Chunk.int m, Chunk.int n => natCompare m n
  | Chunk.str a, Chunk.str b => charsCompare a b
  | Chunk.int _, Chunk.str _ => Ordering.lt
  | Chunk.str _, Chunk.int _ => Ordering.gt

/-- Python list comparison, lexicographic; a strict prefix compares less. -/
def lexCompare : List Chunk → List Chunk → Ordering
  | [], [] => Ordering.eq
  | [], _ :: _ => Ordering.lt
  | _ :: _, [] => Ordering.gt
  | a :: as, b :: bs =>
    match partCompare a b with
    | Ordering.eq => lexCompare as bs
    | o => o

/-- Maximal runs of consecutive characters with equal digit-ness, each run
tagged with `Char.isDigit` of its characters.  No run is empty and adjacent
tags differ. -/
def splitRuns : List Char → List (Bool × List Char)
  | [] => []
  | c :: rest =>
    match splitRuns rest with
    | [] => [(c.isDigit, [c])]
    | (b, run) :: rs =>
      if c.isDigit = b then (b, c :: run) :: rs
      else (c.isDigit, [c]) :: (b, run) :: rs

/-- Numeric value of a digit run (`int(text)`). -/
def digitVal (run : List Char) : ℕ :=
  run.foldl (fun n c => 10 * n + (c.toNat - 48)) 0

/-- `convChunk` from the source: digit chunks to ints, text chunks to
lower-case text. -/
def convChunk (b : Bool) (run : List Char) : Chunk :=
  if b then Chunk.int (digitVal run) else Chunk.str (run.map Char.toLower)

/-- The converted run list. -/
def keyOf (rs : List (Bool × List Char)) : List Chunk :=
  rs.map (fun p => convChunk p.1 p.2)

/-- The empty text chunk `re.split` yields before a leading digit run
(also the single `['']` chunk of the empty string). -/
def frontPad (rs : List (Bool × List Char)) : List Chunk :=
  match rs with
  | [] => [Chunk.str []]
  | (true, _) :: _ => [Chunk.str []]
  | (false, _) :: _ => []

/-- The empty text chunk `re.split` yields after a trailing digit run. -/
def backPad : List (Bool × List Char) → List Chunk
  | [] => []
  | [(true, _)] => [Chunk.str []]
  | [(false, _)] => []
  | _ :: r :: rs => backPad (r :: rs)

/-- The alphanum key of the source: the converted `re.split` chunk list. -/
def pyKey (s : String) : List Chunk :=
  frontPad (splitRuns s.data) ++ (keyOf (splitRuns s.data) ++ backPad (splitRuns s.data))

/-- The comparator the spec describes: maximal alternating digit/non-digit
runs, no padding chunks. -/
def specKey (s : String) : List Chunk :=
  keyOf (splitRuns s.data)

/-- Order used by `natural_sort` (Python `sorted` comparing alphanum keys). -/
def pyCompare (s t : String) : Ordering :=
  lexCompare (pyKey s) (pyKey t)

/-- The spec-described comparator on maximal runs. -/
def specCompare (s t : String) : Ordering :=
  lexCompare (specKey s) (specKey t)

/-- Stable insertion used to model Python's stable `sorted`. -/
def insertStr (x : String) : List String → List String
  | [] => [x]
  | y :: ys =>
    if pyCompare x y = Ordering.gt then y :: insertStr x ys else x :: y :: ys

/-- `natural_sort` from the source: stable sort of the file names by their
alphanum keys. -/
def natural_sort (l : List String) : List String :=
  l.foldr insertStr []

/-- Well-formedness of a maximal run list: no run is empty and adjacent
runs carry different tags. `splitRuns` always produces such a list. -/
inductive GoodRuns : List (Bool × List Char) → Prop where
  | nil : GoodRuns []
  | single (b : Bool) (r : List Char) (h : r ≠ []) : GoodRuns [(b, r)]
  | cons (b : Bool) (r : List Char) (b2 : Bool) (r2 : List Char)
      (rest : List (Bool × List Char)) (h : r ≠ []) (hb : b ≠ b2)
      (ht : GoodRuns ((b2, r2) :: rest)) : GoodRuns ((b, r) :: (b2, r2) :: rest)

/-! ## Dataset discovery (LoadPatients.get_datasets)

A directory listing is modelled as a list of `Entry` values: the path
string, whether `os.path.isfile` holds, and the result of
`pydicom.dcmread` (`none` models a read failure of any kind — the bare
`except:` in the source).  The two result dicts are modelled as
key/value lists in insertion order; `dlookup` returns the value of the
last binding of a key, which is exactly the value a Python dict holds
after the same sequence of `d[k] = v` assignments. -/

/-- The modality field of a read dataset. -/
inductive Modality where
  | ct
  | rtstruct
  | rtdose
  | rtplan
  | other
deriving DecidableEq, Repr

/-- The part of a pydicom dataset this code inspects. -/
structure Dataset where
  modality : Modality
  patientID : String
deriving DecidableEq, Repr

/-- One directory entry together with the behaviour of the collaborators
(`os.path.isfile`, `pydicom.dcmread`) on it. -/
structure Entry where
  path : String
  isFile : Bool
  read : Option Dataset
deriving DecidableEq, Repr

/-- Key space of the two result dicts: int keys for CT slices and the three
fixed string keys. -/
inductive DKey where
  | ct (i : ℕ)
  | rtss
  | rtdose
  | rtplan
deriving DecidableEq, Repr

/-- Value of key `k` after the bindings of `l` are assigned in order into an
initially-empty Python dict (a later binding overwrites an earlier one). -/
def dlookup {α : Type} (k : DKey) : List (DKey × α) → Option α
  | [] => none
  | p :: l =>
    match dlookup k l with
    | some v => some v
    | none => if p.1 = k then some p.2 else none

/-- `os.path.basename`: the part of the path after the last `/`. -/
def basename (p : String) : List Char :=
  (p.data.reverse.takeWhile (fun c => c ≠ '/')).reverse

/-- First two characters of the base name, upper-cased. -/
def upper2 (p : String) : List Char :=
  ((basename p).take 2).map Char.toUpper

/-- The source's pre-filter:
`os.path.isfile(file) and os.path.basename(file)[0:2].upper() in ['CT', 'RD', 'RP', 'RS', 'RT']`. -/
def passes (e : Entry) : Bool :=
  e.isFile && ([['C','T'], ['R','D'], ['R','P'], ['R','S'], ['R','T']].contains (upper2 e.path))

/-- State built by the discovery loop: the two dicts (as binding lists in
assignment order) and the error lines printed for unreadable files. -/
structure GDState where
  readData : List (DKey × Dataset)
  fileNames : List (DKey × String)
  logs : List String
deriving DecidableEq, Repr

/-- The discovery loop of `get_datasets`, over the already-sorted file list;
`i` is the running key counter for CT images. -/
def gdAux : List Entry → ℕ → GDState
  | [], _ => ⟨[], [], []⟩
  | e :: rest, i =>
    if passes e then
      match e.read with
      | none =>
        let r := gdAux rest i
        ⟨r.readData, r.fileNames, ("ERROR: Cannot read file " ++ e.path) :: r.logs⟩
      | some ds =>
        match ds.modality with
        | Modality.ct =>
          let r := gdAux rest (i + 1)
          ⟨(DKey.ct i, ds) :: r.readData, (DKey.ct i, e.path) :: r.fileNames, r.logs⟩
        | Modality.rtstruct =>
          let r := gdAux rest i
          ⟨(DKey.rtss, ds) :: r.readData, (DKey.rtss, e.path) :: r.fileNames, r.logs⟩
        | Modality.rtdose =>
          let r := gdAux rest i
          ⟨(DKey.rtdose, ds) :: r.readData, (DKey.rtdose, e.path) :: r.fileNames, r.logs⟩
        | Modality.rtplan =>
          let r := gdAux rest i
          ⟨(DKey.rtplan, ds) :: r.readData, (DKey.rtplan, e.path) :: r.fileNames, r.logs⟩
        | Modality.other => gdAux rest i
    else gdAux rest i

/-- Stable insertion of a directory entry by natural order of its path. -/
def insertEntry (e : Entry) : List Entry → List Entry
  | [] => [e]
  | f :: fs =>
    if pyCompare e.path f.path = Ordering.gt then f :: insertEntry e fs else e :: f :: fs

/-- `natural_sort(glob.glob(path + '/*'))`: the directory entries in natural
order of their full path strings (stable, as Python's sort is). -/
def sortEntries (l : List Entry) : List Entry :=
  l.foldr insertEntry []

/-- `get_datasets`: sort the directory listing naturally, then classify. -/
def get_datasets (entries : List Entry) : GDState :=
  gdAux (sortEntries entries) 0

/-- The (path, dataset) pairs of the successfully read files of modality `m`
that survive the pre-filter, in enumeration order. -/
def modPairs (m : Modality) (l : List Entry) : List (String × Dataset) :=
  l.filterMap (fun e =>
    if passes e then
      match e.read with
      | some ds => if ds.modality = m then some (e.path, ds) else none
      | none => none
    else none)

/-- Last element of a list, if any. -/
def lastOpt {α : Type} : List α → Option α
  | [] => none
  | [a] => some a
  | _ :: b :: bs => lastOpt (b :: bs)

/-! ## DVH to CSV (BatchProcessDVH2CSV.dvh2csv)

A DVH record carries the fields read by `dvh2csv`: `dvh.name`,
`dvh.volume` and `dvh.relative_volume.counts`.  A CSV cell is either text
or a number; the target file is `Option (List Row)` (`none` = the file
does not exist).  `dvh2csv` appends (`mode='a'`), writing the header only
when the file did not exist (`create_header`).  Pandas `round(2)` is
modelled by `round2` on the numeric cells and `fillna(0.0)` by padding
short rows with numeric `0` up to the header width;
`set_index('Patient ID')` keeps the patient id as the first emitted field
of every row, so emitted rows are unchanged. -/

/-- A DVH record as consumed by `dvh2csv`. -/
structure DVH where
  name : String
  volume : ℚ
  counts : List ℚ
deriving DecidableEq, Repr

/-- A CSV cell: text or numeric. -/
inductive Cell where
  | s (v : String)
  | n (v : ℚ)
deriving DecidableEq, Repr

/-- A CSV row. -/
abbrev Row := List Cell

/-- Elements at positions `n, n + 10, n + 20, ...` counted down by the
skip counter. -/
def every10Aux {α : Type} : List α → ℕ → List α
  | [], _ => []
  | a :: rest, 0 => a :: every10Aux rest 9
  | _ :: rest, n + 1 => every10Aux rest n

/-- `dose[i] for i in range(0, len(dose), 10)`: every 10th element,
starting at position 0. -/
def every10 {α : Type} (l : List α) : List α :=
  every10Aux l 0

/-- The largest index `i` reached by `for i in range(0, len(dose), 10)`,
`0` when the loop body never runs — the per-record contribution to the
running maximum `max_roi_dose`. -/
def maxSampleIdx (counts : List ℚ) : ℕ :=
  match (every10 counts).length with
  | 0 => 0
  | k + 1 => 10 * k

/-- The running maximum `max_roi_dose` over all records of the call
(initialised to 0). -/
def maxRoiDose (records : List (ℕ × DVH)) : ℕ :=
  records.foldl (fun m p => max m (maxSampleIdx p.2.counts)) 0

/-- `range(0, stop, 10)` as a list. -/
def rangeStep10 (stop : ℕ) : List ℕ :=
  (List.range ((stop + 9) / 10)).map (fun k => 10 * k)

/-- Rounding to 2 decimal places (pandas `round(2)` on the numeric cells;
the tie-breaking of binary floats at exact midpoints is not modelled). -/
def round2 (q : ℚ) : ℚ :=
  (((100 * q + 1 / 2).floor : ℤ) : ℚ) / 100

/-- The header row of one `dvh2csv` call:
`['Patient ID', 'ROI', 'Volume (mL)']` then a label `str(i) + 'cGy'` for
each `i in range(0, max_roi_dose + 1, 10)`. -/
def csvHeader (records : List (ℕ × DVH)) : Row :=
  [Cell.s "Patient ID", Cell.s "ROI", Cell.s "Volume (mL)"] ++
    (rangeStep10 (maxRoiDose records + 1)).map (fun i => Cell.s (toString i ++ "cGy"))

/-- The unrounded, unpadded data row built for one record:
`[patient_id, name, volume]` then the stride-10 samples of the counts. -/
def dvhRow (patient_id : String) (d : DVH) : Row :=
  Cell.s patient_id :: Cell.s d.name :: Cell.n d.volume :: (every10 d.counts).map Cell.n

/-- `round(2)` on one cell: numeric cells are rounded, text kept. -/
def roundCell : Cell → Cell
  | Cell.s v => Cell.s v
  | Cell.n q => Cell.n (round2 q)

/-- Pad a row on the right with numeric `0` up to width `w`
(`fillna(0.0)` on the cells the short row leaves undefined). -/
def padRow (w : ℕ) (r : Row) : Row :=
  r ++ List.replicate (w - r.length) (Cell.n 0)

/-- The data rows emitted by one `dvh2csv` call, in record order. -/
def csvRows (records : List (ℕ × DVH)) (patient_id : String) : List Row :=
  records.map (fun p => padRow (csvHeader records).length ((dvhRow patient_id p.2).map roundCell))

/-- `dvh2csv`: the content of the target file after the call.
`file = none` models a non-existing target (`create_header` true). -/
def dvh2csv (records : List (ℕ × DVH)) (patient_id : String) (file : Option (List Row)) : List Row :=
  let create_header := file.isNone
  (file.getD []) ++ (if create_header then [csvHeader records] else []) ++ csvRows records patient_id

/-- The quantity named by the spec: the maximum number of stride-10
samples over the records of one call. -/
def specMaxSamples (records : List (ℕ × DVH)) : ℕ :=
  records.foldl (fun m p => max m (every10 p.2.counts).length) 0

/-! ## The export pipeline (BatchProcessDVH2CSV.start)

`start` runs over: the interrupt flag as observed at its two checkpoints
(`flag1`, `flag2` — the flag is set externally, so the two polls may
differ), the Shared Dataset Store, the outcome of the delegated
thickness/DVH computation (`none` models a raised `TypeError`), and the
target CSV file.  The output records the Python return value, the emitted
progress reports, the printed diagnostics and the final store and file. -/

/-- Modelled from the spec: `PatientDictContainer`, the Shared Dataset
Store (the class itself is not under `src/`); it holds the modality-keyed
dataset index of the current patient. -/
structure PatientDictContainer where
  dataset : List (DKey × Dataset)
deriving DecidableEq, Repr

/-- Modelled from the spec: `clear()` empties the store. -/
def PatientDictContainer.clear (_ : PatientDictContainer) : PatientDictContainer :=
  ⟨[]⟩

/-- Modelled from the spec: `self.ready` as set by
`BatchProcess.load_images` (not under `src/`) — true iff both required
classes `rtss` and `rtdose` are present in the store. -/
def isReady (c : PatientDictContainer) : Bool :=
  (dlookup DKey.rtss c.dataset).isSome && (dlookup DKey.rtdose c.dataset).isSome

/-- `self.patient_dict_container.dataset['rtss'].PatientID`; the lookup is
guarded by the readiness gate in `start` (Python raises `KeyError` when the
key is absent, which cannot happen on the `Ready` path). -/
def patientIdOf (c : PatientDictContainer) : String :=
  ((dlookup DKey.rtss c.dataset).map Dataset.patientID).getD ""

/-- A Python return value of `start`: `None` or a bool. -/
inductive PyRet where
  | none
  | bool (b : Bool)
deriving DecidableEq, Repr

/-- Python truthiness of a `start` return value. -/
def truthy : PyRet → Bool
  | PyRet.none => false
  | PyRet.bool b => b

/-- Arguments and collaborator behaviour of one `start` run. -/
structure StartArgs where
  flag1 : Bool
  flag2 : Bool
  store : PatientDictContainer
  calcDvh : Option (List (ℕ × DVH))
  fs : Option (List Row)
deriving DecidableEq, Repr

/-- Observable outcome of one `start` run. -/
structure StartOut where
  ret : PyRet
  progress : List (String × ℕ)
  logs : List String
  store : PatientDictContainer
  fs : Option (List Row)
deriving DecidableEq, Repr

/-- Progress report at the dataset check. -/
def msg40 : String × ℕ := ("Checking dataset...", 40)

/-- Progress report at the DVH calculation. -/
def msg60 : String × ℕ := ("Calculating DVH...", 60)

/-- Progress report at the CSV export. -/
def msg90 : String × ℕ := ("Exporting DVH to CSV...", 90)

/-- Diagnostic printed when the delegated computation raises `TypeError`. -/
def calcErrMsg : String :=
  "Error when calculating ROI thickness. The dataset may be incomplete. \nSkipping DVH2CSV."

/-- `BatchProcessDVH2CSV.start`.  Checkpoint order as in the source:
interrupt check (clear store, return `False`), readiness check (return
`None`), progress 40 and 60, delegated computation (a `TypeError` is
caught: log and return `None`), second interrupt check (clear store,
return `False`), progress 90, CSV append, implicit `return None`. -/
def start (a : StartArgs) : StartOut :=
  if a.flag1 then
    { ret := PyRet.bool false, progress := [], logs := ["Stopped DVH2CSV"],
      store := a.store.clear, fs := a.fs }
  else if isReady a.store then
    match a.calcDvh with
    | none =>
      { ret := PyRet.none, progress := [msg40, msg60], logs := [calcErrMsg],
        store := a.store, fs := a.fs }
    | some raw =>
      if a.flag2 then
        { ret := PyRet.bool false, progress := [msg40, msg60], logs := ["Stopped DVH2CSV"],
          store := a.store.clear, fs := a.fs }
      else
        { ret := PyRet.none, progress := [msg40, msg60, msg90], logs := [],
          store := a.store, fs := some (dvh2csv raw (patientIdOf a.store) a.fs) }
  else
    { ret := PyRet.none, progress := [], logs := [], store := a.store, fs := a.fs }

/-! Concrete data used by witnesses and counterexamples. -/

/-- A structure-set dataset. -/
def dsRtss : Dataset := { modality := Modality.rtstruct, patientID := "PAT1" }

/-- A dose dataset. -/
def dsRtdose : Dataset := { modality := Modality.rtdose, patientID := "PAT1" }

/-- A store holding both required classes (a `Ready` job's store). -/
def readyStore : PatientDictContainer :=
  ⟨[(DKey.rtss, dsRtss), (DKey.rtdose, dsRtdose)]⟩

/-- A store missing `rtdose` (a `NotReady` job's store). -/
def halfStore : PatientDictContainer :=
  ⟨[(DKey.rtss, dsRtss)]⟩

/-- A DVH record with eleven bins (stride-10 samples at indices 0 and 10). -/
def wDvh : DVH := { name := "roi", volume := 5, counts := [1, 2, 3, 4, 5, 6, 7, 8, 9, 10, 11] }

/-- A one-record DVH mapping. -/
def wRecords : List (ℕ × DVH) := [(1, wDvh)]

/-- A DVH record whose bin sequence is empty. -/
def emptyDvh : DVH := { name := "r", volume := 0, counts := [] }

/-- A one-record mapping whose only record has no bins. -/
def eRecords : List (ℕ × DVH) := [(1, emptyDvh)]

/-- An unreadable candidate file (passes the name pre-filter, read fails). -/
def badEntry : Entry := { path := "RD1.dcm", isFile := true, read := none }

/-! ## Lemmas about the natural-sort comparator -/

lemma natCompare_eq {m n : ℕ} (h : natCompare m n = Ordering.eq) : m = n := by
  unfold natCompare at h
  split_ifs at h with h1 h2
  exact h2

lemma charsCompare_eq : ∀ {a b : List Char}, charsCompare a b = Ordering.eq → a = b
  | [], [], _ => rfl
  | [], _ :: _, h => by simp [charsCompare] at h
  | _ :: _, [], h => by simp [charsCompare] at h
  | a :: as, b :: bs, h => by
    unfold charsCompare at h
    split_ifs at h with h1 h2
    have hab : a = b := le_antisymm (not_lt.mp h2) (not_lt.mp h1)
    rw [hab, charsCompare_eq h]

lemma charsCompare_self : ∀ l : List Char, charsCompare l l = Ordering.eq
  | [] => rfl
  | a :: as => by simp [charsCompare, lt_irrefl, charsCompare_self as]

lemma charsCompare_nil_lt {l : List Char} (h : l ≠ []) : charsCompare [] l = Ordering.lt := by
  cases l with
  | nil => exact absurd rfl h
  | cons c cs => rfl

lemma charsCompare_gt_nil {l : List Char} (h : l ≠ []) : charsCompare l [] = Ordering.gt := by
  cases l with
  | nil => exact absurd rfl h
  | cons c cs => rfl

lemma partCompare_eq : ∀ {p q : Chunk}, partCompare p q = Ordering.eq → p = q := by
  intro p q h
  cases p <;> cases q <;> simp [partCompare] at h ⊢
  · exact natCompare_eq h
  · exact charsCompare_eq h

lemma partCompare_self (p : Chunk) : partCompare p p = Ordering.eq := by
  cases p with
  | int n => simp [partCompare, natCompare]
  | str s => simp [partCompare, charsCompare_self s]

lemma convChunk_tag {b1 b2 : Bool} {x1 x2 : List Char}
    (h : convChunk b1 x1 = convChunk b2 x2) : b1 = b2 := by
  cases b1 <;> cases b2 <;> simp [convChunk] at h ⊢

lemma GoodRuns.tail {p : Bool × List Char} {t : List (Bool × List Char)}
    (h : GoodRuns (p :: t)) : GoodRuns t := by
  cases h with
  | single _ _ _ => exact GoodRuns.nil
  | cons _ _ _ _ _ _ _ ht => exact ht

lemma GoodRuns.head_ne {b : Bool} {r : List Char} {t : List (Bool × List Char)}
    (h : GoodRuns ((b, r) :: t)) : r ≠ [] := by
  cases h with
  | single _ _ hr => exact hr
  | cons _ _ _ _ _ hr _ _ => exact hr

lemma GoodRuns.tags_ne {b b2 : Bool} {r r2 : List Char} {t : List (Bool × List Char)}
    (h : GoodRuns ((b, r) :: (b2, r2) :: t)) : b ≠ b2 := by
  cases h with
  | cons _ _ _ _ _ _ hb _ => exact hb

lemma splitRuns_good (l : List Char) : GoodRuns (splitRuns l) := by
  induction l with
  | nil => exact GoodRuns.nil
  | cons c rest ih =>
    simp only [splitRuns]
    cases h : splitRuns rest with
    | nil => exact GoodRuns.single _ _ (by simp)
    | cons hd rs =>
      obtain ⟨b, run⟩ := hd
      rw [h] at ih
      by_cases hc : c.isDigit = b
      · simp only [if_pos hc]
        cases ih with
        | single _ _ hr => exact GoodRuns.single _ _ (by simp)
        | cons _ _ _ _ _ hr hb ht => exact GoodRuns.cons _ _ _ _ _ (by simp) hb ht
      · simp only [if_neg hc]
        exact GoodRuns.cons _ _ _ _ _ (by simp) hc ih

lemma back_pad_compare :
    ∀ (r1 : List (Bool × List Char)), GoodRuns r1 →
    ∀ (r2 : List (Bool × List Char)), GoodRuns r2 →
      lexCompare (keyOf r1 ++ backPad r1) (keyOf r2 ++ backPad r2) =
        lexCompare (keyOf r1) (keyOf r2) := by
  intro r1
  induction r1 with
  | nil =>
    intro _ r2 _
    cases r2 with
    | nil => rfl
    | cons hd2 t2 => simp [keyOf, backPad, lexCompare]
  | cons hd1 t1 ih =>
    intro g1 r2 g2
    obtain ⟨b1, x1⟩ := hd1
    cases r2 with
    | nil => simp [keyOf, backPad, lexCompare]
    | cons hd2 t2 =>
      obtain ⟨b2, x2⟩ := hd2
      cases hcmp : partCompare (convChunk b1 x1) (convChunk b2 x2) with
      | lt => simp [keyOf, lexCompare, hcmp]
      | gt => simp [keyOf, lexCompare, hcmp]
      | eq =>
        have hx := partCompare_eq hcmp
        have hb : b1 = b2 := convChunk_tag hx
        subst hb
        cases t1 with
        | nil =>
          cases t2 with
          | nil =>
            cases b1
            · simp [keyOf, backPad, lexCompare, hcmp]
            · simp [keyOf, backPad, lexCompare, hcmp, partCompare, charsCompare]
          | cons hd2' t2' =>
            obtain ⟨b2', x2'⟩ := hd2'
            have hb2 : b1 ≠ b2' := g2.tags_ne
            have hx2' : x2' ≠ [] := g2.tail.head_ne
            cases b1
            · simp [keyOf, backPad, lexCompare, hcmp]
            · have hb2' : b2' = false := by
                cases b2'
                · rfl
                · exact absurd rfl hb2
              subst hb2'
              have hnat : natCompare (digitVal x1) (digitVal x2) = Ordering.eq := by
                simpa [convChunk, partCompare] using hcmp
              have hlt : charsCompare [] (List.map Char.toLower x2') = Ordering.lt :=
                charsCompare_nil_lt (by simpa using hx2')
              simp [keyOf, backPad, lexCompare, hnat, convChunk, partCompare, hlt]
        | cons hd1' t1'' =>
          obtain ⟨b1', x1'⟩ := hd1'
          cases t2 with
          | nil =>
            have hb1 : b1 ≠ b1' := g1.tags_ne
            have hx1' : x1' ≠ [] := g1.tail.head_ne
            cases b1
            · simp [keyOf, backPad, lexCompare, hcmp]
            · have hb1' : b1' = false := by
                cases b1'
                · rfl
                · exact absurd rfl hb1
              subst hb1'
              have hnat : natCompare (digitVal x1) (digitVal x2) = Ordering.eq := by
                simpa [convChunk, partCompare] using hcmp
              have hgt : charsCompare (List.map Char.toLower x1') [] = Ordering.gt :=
                charsCompare_gt_nil (by simpa using hx1')
              simp [keyOf, backPad, lexCompare, hnat, convChunk, partCompare, hgt]
          | cons hd2' t2' =>
            obtain ⟨b2', x2'⟩ := hd2'
            have hrec := ih g1.tail ((b2', x2') :: t2') g2.tail
            simp only [keyOf, List.map_cons, List.cons_append, lexCompare, hcmp] at hrec ⊢
            simpa [backPad] using hrec

lemma front_pad_compare (r1 r2 : List (Bool × List Char)) (g1 : GoodRuns r1) (g2 : GoodRuns r2) :
    lexCompare (frontPad r1 ++ (keyOf r1 ++ backPad r1)) (frontPad r2 ++ (keyOf r2 ++ backPad r2)) =
      lexCompare (keyOf r1 ++ backPad r1) (keyOf r2 ++ backPad r2) := by
  cases r1 with
  | nil =>
    cases r2 with
    | nil => rfl
    | cons hd2 t2 =>
      obtain ⟨b2, x2⟩ := hd2
      cases b2
      · have hx2 : x2 ≠ [] := g2.head_ne
        have hlt := charsCompare_nil_lt (show List.map Char.toLower x2 ≠ [] by simpa using hx2)
        simp [frontPad, backPad, keyOf, lexCompare, convChunk, partCompare, hlt]
      · simp [frontPad, backPad, keyOf, lexCompare, partCompare, charsCompare]
  | cons hd1 t1 =>
    obtain ⟨b1, x1⟩ := hd1
    cases r2 with
    | nil =>
      cases b1
      · have hx1 : x1 ≠ [] := g1.head_ne
        have hgt := charsCompare_gt_nil (show List.map Char.toLower x1 ≠ [] by simpa using hx1)
        simp [frontPad, backPad, keyOf, lexCompare, convChunk, partCompare, hgt]
      · simp [frontPad, backPad, keyOf, lexCompare, partCompare, charsCompare]
    | cons hd2 t2 =>
      obtain ⟨b2, x2⟩ := hd2
      cases b1 <;> cases b2
      · rfl
      · have hx1 : x1 ≠ [] := g1.head_ne
        have hgt := charsCompare_gt_nil (show List.map Char.toLower x1 ≠ [] by simpa using hx1)
        simp [frontPad, keyOf, lexCompare, convChunk, partCompare, hgt]
      · have hx2 : x2 ≠ [] := g2.head_ne
        have hlt := charsCompare_nil_lt (show List.map Char.toLower x2 ≠ [] by simpa using hx2)
        simp [frontPad, keyOf, lexCompare, convChunk, partCompare, hlt]
      · simp [frontPad, keyOf, lexCompare, partCompare, charsCompare]

lemma pyCompare_eq_specCompare (s t : String) : pyCompare s t = specCompare s t := by
  have g1 := splitRuns_good s.data
  have g2 := splitRuns_good t.data
  unfold pyCompare specCompare pyKey specKey
  rw [front_pad_compare _ _ g1 g2, back_pad_compare _ g1 _ g2]

lemma lexCompare_strict_pre : ∀ (k r : List Chunk), r ≠ [] → lexCompare k (k ++ r) = Ordering.lt := by
  intro k
  induction k with
  | nil =>
    intro r h
    cases r with
    | nil => exact absurd rfl h
    | cons a as => rfl
  | cons a as ih =>
    intro r h
    simp only [List.cons_append, lexCompare, partCompare_self a]
    exact ih r h

/-! ## Lemmas about dataset discovery -/

lemma dlookup_cons_ne {α : Type} {p : DKey × α} {l : List (DKey × α)} {k : DKey} (h : p.1 ≠ k) :
    dlookup k (p :: l) = dlookup k l := by
  simp only [dlookup]
  cases hd : dlookup k l with
  | some v => rfl
  | none => simp [h]

lemma dlookup_cons_self {α : Type} {p : DKey × α} {l : List (DKey × α)} (h : dlookup p.1 l = none) :
    dlookup p.1 (p :: l) = some p.2 := by
  simp [dlookup, h]

lemma lastOpt_ne_none {α : Type} : ∀ (a : α) (l : List α), lastOpt (a :: l) ≠ none := by
  intro a l
  induction l generalizing a with
  | nil => simp [lastOpt]
  | cons b bs ih => simpa [lastOpt] using ih b

lemma lastOpt_cons {α : Type} (a : α) (l : List α) :
    lastOpt (a :: l) = match lastOpt l with | some v => some v | none => some a := by
  cases l with
  | nil => rfl
  | cons b bs =>
    cases h : lastOpt (b :: bs) with
    | some v => simp [lastOpt, h]
    | none => exact absurd h (lastOpt_ne_none b bs)

lemma gd_keys_eq : ∀ (l : List Entry) (i : ℕ),
    (gdAux l i).readData.map Prod.fst = (gdAux l i).fileNames.map Prod.fst := by
  intro l
  induction l with
  | nil => intro i; rfl
  | cons e rest ih =>
    intro i
    by_cases hp : passes e
    · cases hr : e.read with
      | none => simp [gdAux, hp, hr, ih]
      | some ds => cases hm : ds.modality <;> simp [gdAux, hp, hr, hm, ih]
    · simp [gdAux, hp, ih]

lemma dlookup_isSome_eq {α β : Type} : ∀ (l1 : List (DKey × α)) (l2 : List (DKey × β)),
    l1.map Prod.fst = l2.map Prod.fst →
    ∀ k, (dlookup k l1).isSome = (dlookup k l2).isSome := by
  intro l1
  induction l1 with
  | nil =>
    intro l2 h k
    cases l2 with
    | nil => rfl
    | cons p l => simp at h
  | cons p l ih =>
    intro l2 h k
    cases l2 with
    | nil => simp at h
    | cons q m =>
      simp only [List.map_cons, List.cons.injEq] at h
      obtain ⟨hpq, hlm⟩ := h
      have hrec := ih m hlm k
      simp only [dlookup]
      cases h1 : dlookup k l with
      | some v =>
        cases h2 : dlookup k m with
        | some w => rfl
        | none => rw [h1, h2] at hrec; simp at hrec
      | none =>
        cases h2 : dlookup k m with
        | some w => rw [h1, h2] at hrec; simp at hrec
        | none => rw [hpq]; by_cases hk : q.1 = k <;> simp [hk]

lemma gd_ct_lt_none : ∀ (l : List Entry) (i k : ℕ), k < i →
    dlookup (DKey.ct k) (gdAux l i).readData = none ∧
    dlookup (DKey.ct k) (gdAux l i).fileNames = none := by
  intro l
  induction l with
  | nil => intro i k _; exact ⟨rfl, rfl⟩
  | cons e rest ih =>
    intro i k hk
    by_cases hp : passes e
    · cases hr : e.read with
      | none => simpa [gdAux, hp, hr] using ih i k hk
      | some ds =>
        cases hm : ds.modality <;>
          simp [gdAux, hp, hr, hm, dlookup,
                (ih i k hk).1, (ih i k hk).2,
                (ih (i + 1) k (Nat.lt_succ_of_lt hk)).1,
                (ih (i + 1) k (Nat.lt_succ_of_lt hk)).2,
                show i ≠ k by omega]
    · simpa [gdAux, hp] using ih i k hk

lemma gd_ct_char : ∀ (l : List Entry) (i j : ℕ),
    dlookup (DKey.ct (i + j)) (gdAux l i).readData = ((modPairs Modality.ct l).get? j).map Prod.snd ∧
    dlookup (DKey.ct (i + j)) (gdAux l i).fileNames = ((modPairs Modality.ct l).get? j).map Prod.fst := by
  intro l
  induction l with
  | nil => intro i j; constructor <;> simp [gdAux, modPairs, dlookup]
  | cons e rest ih =>
    intro i j
    by_cases hp : passes e
    · cases hr : e.read with
      | none => simpa [gdAux, modPairs, List.filterMap_cons, hp, hr] using ih i j
      | some ds =>
        cases hm : ds.modality with
        | ct =>
          cases j with
          | zero =>
            have hnone := gd_ct_lt_none rest (i + 1) i (Nat.lt_succ_self i)
            constructor
            · simp [gdAux, hp, hr, hm, dlookup, hnone.1, modPairs, List.filterMap_cons]
            · simp [gdAux, hp, hr, hm, dlookup, hnone.2, modPairs, List.filterMap_cons]
          | succ j' =>
            have hrec := ih (i + 1) j'
            have harith : i + (j' + 1) = i + 1 + j' := by omega
            have hne : DKey.ct i ≠ DKey.ct (i + (j' + 1)) := by simp
            constructor
            · rw [show gdAux (e :: rest) i =
                    ⟨(DKey.ct i, ds) :: (gdAux rest (i + 1)).readData,
                     (DKey.ct i, e.path) :: (gdAux rest (i + 1)).fileNames,
                     (gdAux rest (i + 1)).logs⟩ by simp [gdAux, hp, hr, hm]]
              rw [show dlookup (DKey.ct (i + (j' + 1)))
                    ((DKey.ct i, ds) :: (gdAux rest (i + 1)).readData) =
                    dlookup (DKey.ct (i + (j' + 1))) (gdAux rest (i + 1)).readData from
                    dlookup_cons_ne hne]
              rw [harith]
              simpa [modPairs, List.filterMap_cons, hp, hr, hm] using hrec.1
            · rw [show gdAux (e :: rest) i =
                    ⟨(DKey.ct i, ds) :: (gdAux rest (i + 1)).readData,
                     (DKey.ct i, e.path) :: (gdAux rest (i + 1)).fileNames,
                     (gdAux rest (i + 1)).logs⟩ by simp [gdAux, hp, hr, hm]]
              rw [show dlookup (DKey.ct (i + (j' + 1)))
                    ((DKey.ct i, e.path) :: (gdAux rest (i + 1)).fileNames) =
                    dlookup (DKey.ct (i + (j' + 1))) (gdAux rest (i + 1)).fileNames from
                    dlookup_cons_ne hne]
              rw [harith]
              simpa [modPairs, List.filterMap_cons, hp, hr, hm] using hrec.2
        | rtstruct =>
          have hne : DKey.rtss ≠ DKey.ct (i + j) := by simp
          constructor
          · simpa [gdAux, hp, hr, hm, dlookup_cons_ne, hne, modPairs, List.filterMap_cons]
              using (ih i j).1
          · simpa [gdAux, hp, hr, hm, dlookup_cons_ne, hne, modPairs, List.filterMap_cons]
              using (ih i j).2
        | rtdose =>
          have hne : DKey.rtdose ≠ DKey.ct (i + j) := by simp
          constructor
          · simpa [gdAux, hp, hr, hm, dlookup_cons_ne, hne, modPairs, List.filterMap_cons]
              using (ih i j).1
          · simpa [gdAux, hp, hr, hm, dlookup_cons_ne, hne, modPairs, List.filterMap_cons]
              using (ih i j).2
        | rtplan =>
          have hne : DKey.rtplan ≠ DKey.ct (i + j) := by simp
          constructor
          · simpa [gdAux, hp, hr, hm, dlookup_cons_ne, hne, modPairs, List.filterMap_cons]
              using (ih i j).1
          · simpa [gdAux, hp, hr, hm, dlookup_cons_ne, hne, modPairs, List.filterMap_cons]
              using (ih i j).2
        | other =>
          simpa [gdAux, hp, hr, hm, modPairs, List.filterMap_cons] using ih i j
    · simpa [gdAux, modPairs, List.filterMap_cons, hp] using ih i j

lemma gd_special_char : ∀ (m : Modality) (km : DKey),
    ((m = Modality.rtstruct ∧ km = DKey.rtss) ∨ (m = Modality.rtdose ∧ km = DKey.rtdose) ∨
      (m = Modality.rtplan ∧ km = DKey.rtplan)) →
    ∀ (l : List Entry) (i : ℕ),
      dlookup km (gdAux l i).readData = (lastOpt (modPairs m l)).map Prod.snd ∧
      dlookup km (gdAux l i).fileNames = (lastOpt (modPairs m l)).map Prod.fst := by
  intro m km hmk l
  induction l with
  | nil => intro i; constructor <;> simp [gdAux, modPairs, dlookup, lastOpt]
  | cons e rest ih =>
    intro i
    by_cases hp : passes e
    · cases hr : e.read with
      | none => simpa [gdAux, modPairs, List.filterMap_cons, hp, hr] using ih i
      | some ds =>
        by_cases hdms : ds.modality = m
        · -- the head stores under km and contributes the pair to modPairs m
          have hkey : gdAux (e :: rest) i =
              ⟨(km, ds) :: (gdAux rest i).readData,
               (km, e.path) :: (gdAux rest i).fileNames, (gdAux rest i).logs⟩ := by
            rcases hmk with ⟨h1, h2⟩ | ⟨h1, h2⟩ | ⟨h1, h2⟩ <;>
              (subst h1; subst h2; simp [gdAux, hp, hr, hdms])
          have hpair : modPairs m (e :: rest) = (e.path, ds) :: modPairs m rest := by
            simp [modPairs, List.filterMap_cons, hp, hr, hdms]
          rw [hkey, hpair]
          constructor
          · simp only [dlookup]
            cases hlast : lastOpt (modPairs m rest) with
            | some q =>
              have := (ih i).1
              rw [hlast] at this
              simp [this, lastOpt_cons, hlast]
            | none =>
              have := (ih i).1
              rw [hlast] at this
              simp [this, lastOpt_cons, hlast]
          · simp only [dlookup]
            cases hlast : lastOpt (modPairs m rest) with
            | some q =>
              have := (ih i).2
              rw [hlast] at this
              simp [this, lastOpt_cons, hlast]
            | none =>
              have := (ih i).2
              rw [hlast] at this
              simp [this, lastOpt_cons, hlast]
        · -- head stored under a different key (or skipped): modPairs m skips it
          have hpair : modPairs m (e :: rest) = modPairs m rest := by
            simp [modPairs, List.filterMap_cons, hp, hr, hdms]
          cases hm : ds.modality with
          | ct =>
            have hne : DKey.ct i ≠ km := by
              rcases hmk with ⟨h1, h2⟩ | ⟨h1, h2⟩ | ⟨h1, h2⟩ <;> (subst h2; simp)
            constructor
            · rw [show gdAux (e :: rest) i =
                    ⟨(DKey.ct i, ds) :: (gdAux rest (i + 1)).readData,
                     (DKey.ct i, e.path) :: (gdAux rest (i + 1)).fileNames,
                     (gdAux rest (i + 1)).logs⟩ by simp [gdAux, hp, hr, hm]]
              rw [hpair, dlookup_cons_ne hne]
              exact (ih (i + 1)).1
            · rw [show gdAux (e :: rest) i =
                    ⟨(DKey.ct i, ds) :: (gdAux rest (i + 1)).readData,
                     (DKey.ct i, e.path) :: (gdAux rest (i + 1)).fileNames,
                     (gdAux rest (i + 1)).logs⟩ by simp [gdAux, hp, hr, hm]]
              rw [hpair, dlookup_cons_ne hne]
              exact (ih (i + 1)).2
          | rtstruct =>
            have hne : DKey.rtss ≠ km := by
              rcases hmk with ⟨h1, h2⟩ | ⟨h1, h2⟩ | ⟨h1, h2⟩ <;>
                (subst h1; subst h2; first | (exact absurd hm hdms) | simp)
            constructor
            · rw [show gdAux (e :: rest) i =
                    ⟨(DKey.rtss, ds) :: (gdAux rest i).readData,
                     (DKey.rtss, e.path) :: (gdAux rest i).fileNames,
                     (gdAux rest i).logs⟩ by simp [gdAux, hp, hr, hm]]
              rw [hpair, dlookup_cons_ne hne]
              exact (ih i).1
            · rw [show gdAux (e :: rest) i =
                    ⟨(DKey.rtss, ds) :: (gdAux rest i).readData,
                     (DKey.rtss, e.path) :: (gdAux rest i).fileNames,
                     (gdAux rest i).logs⟩ by simp [gdAux, hp, hr, hm]]
              rw [hpair, dlookup_cons_ne hne]
              exact (ih i).2
          | rtdose =>
            have hne : DKey.rtdose ≠ km := by
              rcases hmk with ⟨h1, h2⟩ | ⟨h1, h2⟩ | ⟨h1, h2⟩ <;>
                (subst h1; subst h2; first | (exact absurd hm hdms) | simp)
            constructor
            · rw [show gdAux (e :: rest) i =
                    ⟨(DKey.rtdose, ds) :: (gdAux rest i).readData,
                     (DKey.rtdose, e.path) :: (gdAux rest i).fileNames,
                     (gdAux rest i).logs⟩ by simp [gdAux, hp, hr, hm]]
              rw [hpair, dlookup_cons_ne hne]
              exact (ih i).1
            · rw [show gdAux (e :: rest) i =
                    ⟨(DKey.rtdose, ds) :: (gdAux rest i).readData,
                     (DKey.rtdose, e.path) :: (gdAux rest i).fileNames,
                     (gdAux rest i).logs⟩ by simp [gdAux, hp, hr, hm]]
              rw [hpair, dlookup_cons_ne hne]
              exact (ih i).2
          | rtplan =>
            have hne : DKey.rtplan ≠ km := by
              rcases hmk with ⟨h1, h2⟩ | ⟨h1, h2⟩ | ⟨h1, h2⟩ <;>
                (subst h1; subst h2; first | (exact absurd hm hdms) | simp)
            constructor
            · rw [show gdAux (e :: rest) i =
                    ⟨(DKey.rtplan, ds) :: (gdAux rest i).readData,
                     (DKey.rtplan, e.path) :: (gdAux rest i).fileNames,
                     (gdAux rest i).logs⟩ by simp [gdAux, hp, hr, hm]]
              rw [hpair, dlookup_cons_ne hne]
              exact (ih i).1
            · rw [show gdAux (e :: rest) i =
                    ⟨(DKey.rtplan, ds) :: (gdAux rest i).readData,
                     (DKey.rtplan, e.path) :: (gdAux rest i).fileNames,
                     (gdAux rest i).logs⟩ by simp [gdAux, hp, hr, hm]]
              rw [hpair, dlookup_cons_ne hne]
              exact (ih i).2
          | other =>
            rw [show gdAux (e :: rest) i = gdAux rest i by simp [gdAux, hp, hr, hm]]
            rw [hpair]
            exact ih i
    · simpa [gdAux, modPairs, List.filterMap_cons, hp] using ih i

lemma gd_skip_unreadable : ∀ (l1 : List Entry) (e : Entry) (l2 : List Entry) (i : ℕ),
    passes e = true → e.read = none →
    (gdAux (l1 ++ e :: l2) i).readData = (gdAux (l1 ++ l2) i).readData ∧
    (gdAux (l1 ++ e :: l2) i).fileNames = (gdAux (l1 ++ l2) i).fileNames ∧
    ("ERROR: Cannot read file " ++ e.path) ∈ (gdAux (l1 ++ e :: l2) i).logs := by
  intro l1
  induction l1 with
  | nil =>
    intro e l2 i hp hr
    refine ⟨?_, ?_, ?_⟩ <;> simp [gdAux, hp, hr]
  | cons a l1' ih =>
    intro e l2 i hp hr
    by_cases hpa : passes a
    · cases hra : a.read with
      | none =>
        have h := ih e l2 i hp hr
        exact ⟨by simp [gdAux, hpa, hra, h.1], by simp [gdAux, hpa, hra, h.2.1],
               by simp [gdAux, hpa, hra, h.2.2]⟩
      | some ds =>
        cases hma : ds.modality with
        | ct =>
          have h := ih e l2 (i + 1) hp hr
          exact ⟨by simp [gdAux, hpa, hra, hma, h.1], by simp [gdAux, hpa, hra, hma, h.2.1],
                 by simp [gdAux, hpa, hra, hma, h.2.2]⟩
        | rtstruct =>
          have h := ih e l2 i hp hr
          exact ⟨by simp [gdAux, hpa, hra, hma, h.1], by simp [gdAux, hpa, hra, hma, h.2.1],
                 by simp [gdAux, hpa, hra, hma, h.2.2]⟩
        | rtdose =>
          have h := ih e l2 i hp hr
          exact ⟨by simp [gdAux, hpa, hra, hma, h.1], by simp [gdAux, hpa, hra, hma, h.2.1],
                 by simp [gdAux, hpa, hra, hma, h.2.2]⟩
        | rtplan =>
          have h := ih e l2 i hp hr
          exact ⟨by simp [gdAux, hpa, hra, hma, h.1], by simp [gdAux, hpa, hra, hma, h.2.1],
                 by simp [gdAux, hpa, hra, hma, h.2.2]⟩
        | other =>
          have h := ih e l2 i hp hr
          exact ⟨by simp [gdAux, hpa, hra, hma, h.1], by simp [gdAux, hpa, hra, hma, h.2.1],
                 by simp [gdAux, hpa, hra, hma, h.2.2]⟩
    · have h := ih e l2 i hp hr
      exact ⟨by simp [gdAux, hpa, h.1], by simp [gdAux, hpa, h.2.1],
             by simp [gdAux, hpa, h.2.2]⟩

lemma gd_all_unmatched : ∀ (l : List Entry) (i : ℕ),
    (∀ e ∈ l, passes e = false) → gdAux l i = ⟨[], [], []⟩ := by
  intro l
  induction l with
  | nil => intro i _; rfl
  | cons e rest ih =>
    intro i h
    have he : passes e = false := h e (List.mem_cons_self e rest)
    have hrest : ∀ e2 ∈ rest, passes e2 = false := fun e2 hm => h e2 (List.mem_cons_of_mem e hm)
    simp [gdAux, he, ih i hrest]

lemma mem_insertEntry {e x : Entry} : ∀ (l : List Entry), x ∈ insertEntry e l ↔ x = e ∨ x ∈ l := by
  intro l
  induction l with
  | nil => simp [insertEntry]
  | cons f fs ih =>
    by_cases hc : pyCompare e.path f.path = Ordering.gt
    · simp [insertEntry, hc, ih]
      tauto
    · simp [insertEntry, hc]

lemma mem_sortEntries {x : Entry} : ∀ (l : List Entry), x ∈ sortEntries l ↔ x ∈ l := by
  intro l
  induction l with
  | nil => simp [sortEntries]
  | cons e rest ih =>
    show x ∈ insertEntry e (sortEntries rest) ↔ _
    rw [mem_insertEntry]
    simp [ih]

/-! ## Lemmas about the CSV writer -/

lemma every10Aux_get {α : Type} : ∀ (l : List α) (n k : ℕ),
    (every10Aux l n).get? k = l.get? (n + 10 * k) := by
  intro l
  induction l with
  | nil => intro n k; simp [every10Aux]
  | cons a rest ih =>
    intro n k
    cases n with
    | zero =>
      cases k with
      | zero => simp [every10Aux]
      | succ k' =>
        rw [show (0 : ℕ) + 10 * (k' + 1) = (9 + 10 * k') + 1 by omega]
        simp only [every10Aux, List.get?_cons_succ]
        exact ih 9 k'
    | succ n' =>
      rw [show n' + 1 + 10 * k = (n' + 10 * k) + 1 by omega]
      simp only [every10Aux, List.get?_cons_succ]
      exact ih n' k

lemma every10_get {α : Type} (l : List α) (k : ℕ) :
    (every10 l).get? k = l.get? (10 * k) := by
  simpa using every10Aux_get l 0 k

lemma maxSampleIdx_eq (c : List ℚ) :
    maxSampleIdx c = 10 * max 1 (every10 c).length - 10 := by
  unfold maxSampleIdx
  cases h : (every10 c).length with
  | zero => simp
  | succ k =>
    show 10 * k = 10 * max 1 (k + 1) - 10
    omega

lemma max_arith (a L : ℕ) :
    max (10 * max 1 a - 10) (10 * max 1 L - 10) = 10 * max 1 (max a L) - 10 := by
  omega

lemma foldl_max_rel : ∀ (rs : List (ℕ × DVH)) (a : ℕ),
    rs.foldl (fun m p => max m (maxSampleIdx p.2.counts)) (10 * max 1 a - 10) =
      10 * max 1 (rs.foldl (fun m p => max m (every10 p.2.counts).length) a) - 10 := by
  intro rs
  induction rs with
  | nil => intro a; rfl
  | cons p rest ih =>
    intro a
    simp only [List.foldl_cons]
    rw [maxSampleIdx_eq, max_arith]
    exact ih (max a (every10 p.2.counts).length)

lemma maxRoiDose_eq (records : List (ℕ × DVH)) :
    maxRoiDose records = 10 * max 1 (specMaxSamples records) - 10 := by
  have h := foldl_max_rel records 0
  simpa [maxRoiDose, specMaxSamples] using h

lemma csvHeader_length (records : List (ℕ × DVH)) :
    (csvHeader records).length = 3 + max 1 (specMaxSamples records) := by
  simp [csvHeader, rangeStep10, maxRoiDose_eq]
  omega

lemma csvHeader_get (records : List (ℕ × DVH)) (j : ℕ)
    (hj : j < max 1 (specMaxSamples records)) :
    (csvHeader records).get? (3 + j) = some (Cell.s (toString (10 * j) ++ "cGy")) := by
  have hn : j < (maxRoiDose records + 1 + 9) / 10 := by
    rw [maxRoiDose_eq]; omega
  show ([Cell.s "Patient ID", Cell.s "ROI", Cell.s "Volume (mL)"] ++
      (rangeStep10 (maxRoiDose records + 1)).map (fun i => Cell.s (toString i ++ "cGy"))).get?
      (3 + j) = _
  rw [show (3 + j) = (j + 2) + 1 by omega]
  simp only [List.cons_append, List.nil_append, List.get?_cons_succ]
  simp only [rangeStep10, List.map_map, List.get?_map, List.get?_range hn, Option.map_some']
  rfl

lemma dvhRow_map_round (pid : String) (d : DVH) :
    (dvhRow pid d).map roundCell =
      Cell.s pid :: Cell.s d.name :: Cell.n (round2 d.volume) ::
        (every10 d.counts).map (fun q => Cell.n (round2 q)) := by
  simp [dvhRow, roundCell, List.map_map, Function.comp]

lemma row_eq (records : List (ℕ × DVH)) (pid : String) (d : DVH) :
    padRow (csvHeader records).length ((dvhRow pid d).map roundCell) =
      Cell.s pid :: Cell.s d.name :: Cell.n (round2 d.volume) ::
        ((every10 d.counts).map (fun q => Cell.n (round2 q)) ++
          List.replicate (max 1 (specMaxSamples records) - (every10 d.counts).length)
            (Cell.n 0)) := by
  have hlen : ((dvhRow pid d).map roundCell).length = 3 + (every10 d.counts).length := by
    simp [dvhRow]
    omega
  have hcount : (csvHeader records).length - ((dvhRow pid d).map roundCell).length =
      max 1 (specMaxSamples records) - (every10 d.counts).length := by
    rw [csvHeader_length, hlen]
    omega
  unfold padRow
  rw [hcount, dvhRow_map_round, List.cons_append, List.cons_append, List.cons_append]

lemma csvRows_eq (records : List (ℕ × DVH)) (pid : String) :
    csvRows records pid = records.map (fun p =>
      Cell.s pid :: Cell.s p.2.name :: Cell.n (round2 p.2.volume) ::
        ((every10 p.2.counts).map (fun q => Cell.n (round2 q)) ++
          List.replicate (max 1 (specMaxSamples records) - (every10 p.2.counts).length)
            (Cell.n 0))) := by
  unfold csvRows
  exact List.map_congr_left fun p _ => row_eq records pid p.2

lemma foldl_max_le_init {α : Type} (g : α → ℕ) : ∀ (rs : List α) (a : ℕ),
    a ≤ rs.foldl (fun m p => max m (g p)) a := by
  intro rs
  induction rs with
  | nil => intro a; exact le_refl a
  | cons p rest ih => intro a; exact le_trans (le_max_left a (g p)) (ih (max a (g p)))

lemma foldl_max_mem_le {α : Type} (g : α → ℕ) : ∀ (rs : List α) (a : ℕ) (x : α), x ∈ rs →
    g x ≤ rs.foldl (fun m p => max m (g p)) a := by
  intro rs
  induction rs with
  | nil => intro a x hx; simp at hx
  | cons p rest ih =>
    intro a x hx
    rcases List.mem_cons.mp hx with h | h
    · subst h; exact le_trans (le_max_right a (g x)) (foldl_max_le_init g rest _)
    · exact ih _ x h

lemma round2_form (q : ℚ) : ∃ z : ℤ, round2 q = (z : ℚ) / 100 :=
  ⟨(100 * q + 1 / 2).floor, rfl⟩

/-! ## Claim theorems -/

/-- C1 counterexample: a Ready, non-cancelled run that completes the CSV
export (returns `None`, emits all three progress reports, writes the file)
does not leave the Shared Dataset Store empty — no `clear()` runs on the
completion path of `start`. -/
theorem C1_counterexample :
    (start ⟨false, false, readyStore, some [], none⟩).ret = PyRet.none ∧
    (start ⟨false, false, readyStore, some [], none⟩).progress = [msg40, msg60, msg90] ∧
    (start ⟨false, false, readyStore, some [], none⟩).fs.isSome = true ∧
    (start ⟨false, false, readyStore, some [], none⟩).store.dataset ≠ [] := by
  refine ⟨rfl, rfl, rfl, by decide⟩

/-- C1 (amended): the Shared Dataset Store is emptied by `clear()` exactly
when an interruption checkpoint observes the flag; a Ready, non-cancelled
run that finishes the CSV export returns `None` with the store left
unchanged (not cleared) and the target file rewritten by `dvh2csv`. -/
theorem C1_clear_on_interrupt_only : ∀ a : StartArgs,
    (a.flag1 = true → (start a).store = a.store.clear) ∧
    (∀ raw, a.flag1 = false → isReady a.store = true → a.calcDvh = some raw →
      a.flag2 = true → (start a).store = a.store.clear) ∧
    (∀ raw, a.flag1 = false → isReady a.store = true → a.calcDvh = some raw →
      a.flag2 = false →
      (start a).ret = PyRet.none ∧ (start a).store = a.store ∧
      (start a).fs = some (dvh2csv raw (patientIdOf a.store) a.fs)) := by
  intro a
  refine ⟨fun h1 => by simp [start, h1], ?_, ?_⟩
  · intro raw h1 h2 h3 h4
    simp [start, h1, h2, h3, h4]
  · intro raw h1 h2 h3 h4
    simp [start, h1, h2, h3, h4]

/-- Witness for C1 at concrete runs (an interrupted one and a completed one). -/
theorem C1_witness :
    (start ⟨true, false, readyStore, none, none⟩).store =
      PatientDictContainer.clear readyStore ∧
    (start ⟨false, false, readyStore, some [], none⟩).store = readyStore :=
  ⟨(C1_clear_on_interrupt_only ⟨true, false, readyStore, none, none⟩).1 rfl,
   ((C1_clear_on_interrupt_only ⟨false, false, readyStore, some [], none⟩).2.2
      [] rfl (by decide) rfl rfl).2.1⟩

/-- C2 counterexample: a job constructed NotReady whose interrupt flag is
already set does not leave the store unchanged — the interrupt checkpoint
precedes the readiness gate and clears the store. -/
theorem C2_counterexample :
    isReady halfStore = false ∧
    (start ⟨true, false, halfStore, none, none⟩).store ≠ halfStore := by
  exact ⟨by decide, by decide⟩

/-- C2 (amended): a NotReady job's `start()` returns a falsy value, emits
no progress and performs no CSV write; it leaves the store unchanged when
the interrupt flag is clear, while a set flag makes the pre-readiness
interrupt checkpoint return `False` and clear the store. -/
theorem C2_not_ready : ∀ a : StartArgs, isReady a.store = false →
    truthy (start a).ret = false ∧ (start a).progress = [] ∧ (start a).fs = a.fs ∧
    (a.flag1 = false → (start a).ret = PyRet.none ∧ (start a).store = a.store) ∧
    (a.flag1 = true → (start a).ret = PyRet.bool false ∧ (start a).store = a.store.clear) := by
  intro a h
  cases h1 : a.flag1
  · simp [start, truthy, h, h1]
  · simp [start, truthy, h, h1]

/-- Witness for C2 at a concrete NotReady job with the flag clear. -/
theorem C2_witness :
    truthy (start ⟨false, false, halfStore, none, none⟩).ret = false ∧
    (start ⟨false, false, halfStore, none, none⟩).store = halfStore :=
  ⟨(C2_not_ready ⟨false, false, halfStore, none, none⟩ (by decide)).1,
   ((C2_not_ready ⟨false, false, halfStore, none, none⟩ (by decide)).2.2.2.1 rfl).2⟩

/-- C3: within one discovery call the two returned dicts have identical
key sets; the CT keys are exactly the contiguous integers `0..n-1` (where
`n` counts the successfully read CT files), assigned in the natural-sort
enumeration order of the file paths — the `j`-th CT key holds exactly the
`j`-th CT file of the sorted listing; and for each of `rtss`, `rtdose`,
`rtplan` the stored dataset and path are those of the last file of that
modality in enumeration order (last-one-wins).  Files of any other
modality do not occur in `modPairs` and so contribute to no key. -/
theorem C3_discovery_invariants : ∀ (entries : List Entry),
    (∀ k : DKey, (dlookup k (get_datasets entries).readData).isSome =
      (dlookup k (get_datasets entries).fileNames).isSome) ∧
    (∀ j : ℕ, dlookup (DKey.ct j) (get_datasets entries).readData =
      ((modPairs Modality.ct (sortEntries entries)).get? j).map Prod.snd) ∧
    (∀ j : ℕ, dlookup (DKey.ct j) (get_datasets entries).fileNames =
      ((modPairs Modality.ct (sortEntries entries)).get? j).map Prod.fst) ∧
    (∀ j : ℕ, (dlookup (DKey.ct j) (get_datasets entries).readData).isSome = true ↔
      j < (modPairs Modality.ct (sortEntries entries)).length) ∧
    (dlookup DKey.rtss (get_datasets entries).readData =
      (lastOpt (modPairs Modality.rtstruct (sortEntries entries))).map Prod.snd) ∧
    (dlookup DKey.rtss (get_datasets entries).fileNames =
      (lastOpt (modPairs Modality.rtstruct (sortEntries entries))).map Prod.fst) ∧
    (dlookup DKey.rtdose (get_datasets entries).readData =
      (lastOpt (modPairs Modality.rtdose (sortEntries entries))).map Prod.snd) ∧
    (dlookup DKey.rtdose (get_datasets entries).fileNames =
      (lastOpt (modPairs Modality.rtdose (sortEntries entries))).map Prod.fst) ∧
    (dlookup DKey.rtplan (get_datasets entries).readData =
      (lastOpt (modPairs Modality.rtplan (sortEntries entries))).map Prod.snd) ∧
    (dlookup DKey.rtplan (get_datasets entries).fileNames =
      (lastOpt (modPairs Modality.rtplan (sortEntries entries))).map Prod.fst) := by
  intro entries
  refine ⟨?_, ?_, ?_, ?_, ?_, ?_, ?_, ?_, ?_, ?_⟩
  · exact dlookup_isSome_eq _ _ (gd_keys_eq (sortEntries entries) 0)
  · intro j
    simpa using (gd_ct_char (sortEntries entries) 0 j).1
  · intro j
    simpa using (gd_ct_char (sortEntries entries) 0 j).2
  · intro j
    have h := (gd_ct_char (sortEntries entries) 0 j).1
    simp only [Nat.zero_add] at h
    rw [show get_datasets entries = gdAux (sortEntries entries) 0 from rfl, h]
    cases hg : (modPairs Modality.ct (sortEntries entries)).get? j with
    | none =>
      have hlen := List.get?_eq_none.mp hg
      simp
      omega
    | some v =>
      simp
      by_contra hlt
      rw [List.get?_eq_none.mpr (Nat.le_of_not_lt hlt)] at hg
      exact Option.noConfusion hg
  · exact (gd_special_char Modality.rtstruct DKey.rtss (Or.inl ⟨rfl, rfl⟩)
      (sortEntries entries) 0).1
  · exact (gd_special_char Modality.rtstruct DKey.rtss (Or.inl ⟨rfl, rfl⟩)
      (sortEntries entries) 0).2
  · exact (gd_special_char Modality.rtdose DKey.rtdose (Or.inr (Or.inl ⟨rfl, rfl⟩))
      (sortEntries entries) 0).1
  · exact (gd_special_char Modality.rtdose DKey.rtdose (Or.inr (Or.inl ⟨rfl, rfl⟩))
      (sortEntries entries) 0).2
  · exact (gd_special_char Modality.rtplan DKey.rtplan (Or.inr (Or.inr ⟨rfl, rfl⟩))
      (sortEntries entries) 0).1
  · exact (gd_special_char Modality.rtplan DKey.rtplan (Or.inr (Or.inr ⟨rfl, rfl⟩))
      (sortEntries entries) 0).2

/-- C4 counterexample: for a one-record call whose record has an empty bin
sequence the header still carries the `0cGy` dose column, so the header's
dose-column count (1) differs from the maximum number of stride-10 samples
over the records (0): the total header width is 4, not 3 + 0. -/
theorem C4_counterexample :
    ¬ ((csvHeader eRecords).length = 3 + specMaxSamples eRecords) := by decide

/-- C4 (amended): every emitted data row is `[patient_id, roi_name,
volume, bins...]` with the bins taken at positions 0, 10, 20, ... of the
record's count sequence (sample `k` of `every10 l` is element `10*k` of
`l`), all numeric cells rounded to 2 decimal places and short rows
zero-filled on the right up to the header width; the header's dose columns
are labelled `0cGy, 10cGy, ...`; and the header's dose-column count equals
the maximum number of stride-10 samples over the records, except that it
is 1 (the lone `0cGy` column) when that maximum is 0. -/
theorem C4_rows_and_header : ∀ (records : List (ℕ × DVH)) (pid : String),
    (∀ (l : List ℚ) (k : ℕ), (every10 l).get? k = l.get? (10 * k)) ∧
    (csvHeader records).length = 3 + max 1 (specMaxSamples records) ∧
    (∀ j : ℕ, j < max 1 (specMaxSamples records) →
      (csvHeader records).get? (3 + j) = some (Cell.s (toString (10 * j) ++ "cGy"))) ∧
    csvRows records pid = records.map (fun p =>
      Cell.s pid :: Cell.s p.2.name :: Cell.n (round2 p.2.volume) ::
        ((every10 p.2.counts).map (fun q => Cell.n (round2 q)) ++
          List.replicate (max 1 (specMaxSamples records) - (every10 p.2.counts).length)
            (Cell.n 0))) ∧
    (∀ p ∈ records, (every10 p.2.counts).length ≤ max 1 (specMaxSamples records)) ∧
    (∀ r ∈ csvRows records pid, ∀ q : ℚ, Cell.n q ∈ r → ∃ z : ℤ, q = (z : ℚ) / 100) := by
  intro records pid
  refine ⟨every10_get, csvHeader_length records, csvHeader_get records,
          csvRows_eq records pid, ?_, ?_⟩
  · intro p hp
    exact le_trans (foldl_max_mem_le (fun p => (every10 p.2.counts).length) records 0 p hp)
      (le_max_right 1 _)
  · intro r hr q hq
    rw [csvRows_eq records pid] at hr
    obtain ⟨p, hp, rfl⟩ := List.mem_map.mp hr
    simp only [List.mem_cons, List.mem_append, List.mem_map, List.mem_replicate] at hq
    rcases hq with h | h | h | ⟨x, hx, hxe⟩ | ⟨hn, hz⟩
    · exact absurd h (by simp)
    · exact absurd h (by simp)
    · have hq' : q = round2 p.2.volume := by simpa using h
      obtain ⟨z, hzz⟩ := round2_form p.2.volume
      exact ⟨z, by rw [hq', hzz]⟩
    · have hq' : q = round2 x := by simpa using hxe.symm
      obtain ⟨z, hzz⟩ := round2_form x
      exact ⟨z, by rw [hq', hzz]⟩
    · have hq' : q = 0 := by simpa using hz
      exact ⟨0, by simp [hq']⟩

/-- Witness for C4 at a concrete record list with eleven bins (two
stride-10 samples, dose columns `0cGy` and `10cGy`). -/
theorem C4_witness :
    (csvHeader wRecords).get? (3 + 1) = some (Cell.s (toString (10 * 1) ++ "cGy")) ∧
    1 < max 1 (specMaxSamples wRecords) :=
  ⟨(C4_rows_and_header wRecords "p").2.2.1 1 (by decide), by decide⟩

/-- C5: the natural-sort comparator of the source compares two strings
exactly as the run-by-run contract describes (`specCompare`: split into
maximal alternating digit/non-digit runs, digit runs compared as numbers,
non-digit runs case-insensitively; at a kind mismatch the digit run sorts
first, which is the behaviour the source's empty edge chunks force); a
strict prefix of the run sequence sorts first; and the file names
CT1.dcm, CT10.dcm, CT2.dcm are enumerated as CT1, CT2, CT10. -/
theorem C5_natural_sort_contract :
    (∀ s t : String, pyCompare s t = specCompare s t) ∧
    (∀ s t : String, (∃ r, r ≠ [] ∧ specKey t = specKey s ++ r) →
      specCompare s t = Ordering.lt) ∧
    natural_sort ["CT1.dcm", "CT10.dcm", "CT2.dcm"] = ["CT1.dcm", "CT2.dcm", "CT10.dcm"] := by
  refine ⟨pyCompare_eq_specCompare, ?_, by decide⟩
  intro s t ⟨r, hr, hkey⟩
  unfold specCompare
  rw [hkey]
  exact lexCompare_strict_pre (specKey s) r hr

/-- Witness for C5 at concrete strings (`"a1"`'s run key strictly extends
`"a"`'s). -/
theorem C5_witness :
    pyCompare "CT2.dcm" "CT10.dcm" = specCompare "CT2.dcm" "CT10.dcm" ∧
    specCompare "a" "a1" = Ordering.lt :=
  ⟨C5_natural_sort_contract.1 "CT2.dcm" "CT10.dcm",
   C5_natural_sort_contract.2.1 "a" "a1" ⟨[Chunk.int 1], by decide, by decide⟩⟩

/-- C6: a header row is written iff the target CSV file does not exist at
the start of the call; an existing file's content is preserved unchanged
as a prefix and only the data rows are appended, none of which equals the
call's header row (no duplicate header line). -/
theorem C6_header_iff_new_file : ∀ (records : List (ℕ × DVH)) (pid : String),
    dvh2csv records pid none = csvHeader records :: csvRows records pid ∧
    (∀ c : List Row, dvh2csv records pid (some c) = c ++ csvRows records pid) ∧
    (∀ r ∈ csvRows records pid, r ≠ csvHeader records) := by
  intro records pid
  refine ⟨by simp [dvh2csv], fun c => by simp [dvh2csv], ?_⟩
  intro r hr heq
  rw [csvRows_eq records pid] at hr
  obtain ⟨p, hp, rfl⟩ := List.mem_map.mp hr
  have h2 := congrArg (fun l => l.get? 2) heq
  simp [csvHeader] at h2

/-- Witness for C6 at a concrete one-record call. -/
theorem C6_witness :
    dvh2csv wRecords "p" none = csvHeader wRecords :: csvRows wRecords "p" ∧
    (csvRows wRecords "p").head! ≠ csvHeader wRecords := by
  refine ⟨(C6_header_iff_new_file wRecords "p").1, ?_⟩
  exact (C6_header_iff_new_file wRecords "p").2.2 _
    (List.head!_mem_self (by simp [csvRows, wRecords]))

/-- C7: a Ready job whose interrupt flag is observed at a checkpoint
returns `False` with the "Stopped DVH2CSV" notice, leaves the Shared
Dataset Store empty, and does not touch the CSV file; at the first
checkpoint no progress report is emitted, at the second only the two
pre-computation reports exist (at most three, none after the cancellation
is observed).  The model is a total function, so no exception escapes. -/
theorem C7_cancellation : ∀ a : StartArgs,
    (a.flag1 = true →
      (start a).ret = PyRet.bool false ∧ (start a).store.dataset = [] ∧
      (start a).progress = [] ∧ (start a).logs = ["Stopped DVH2CSV"] ∧
      (start a).fs = a.fs) ∧
    (a.flag1 = false → isReady a.store = true → a.calcDvh.isSome = true → a.flag2 = true →
      (start a).ret = PyRet.bool false ∧ (start a).store.dataset = [] ∧
      (start a).progress = [msg40, msg60] ∧ (start a).progress.length ≤ 3 ∧
      (start a).logs = ["Stopped DVH2CSV"] ∧ (start a).fs = a.fs) := by
  intro a
  constructor
  · intro h1
    simp [start, h1, PatientDictContainer.clear]
  · intro h1 h2 h3 h4
    obtain ⟨raw, hraw⟩ := Option.isSome_iff_exists.mp h3
    simp [start, h1, h2, hraw, h4, PatientDictContainer.clear]

/-- Witness for C7 at concrete runs cancelled at each checkpoint. -/
theorem C7_witness :
    (start ⟨true, false, readyStore, none, none⟩).ret = PyRet.bool false ∧
    (start ⟨true, false, readyStore, none, none⟩).store.dataset = [] ∧
    (start ⟨false, true, readyStore, some [], none⟩).ret = PyRet.bool false ∧
    (start ⟨false, true, readyStore, some [], none⟩).progress = [msg40, msg60] :=
  ⟨((C7_cancellation ⟨true, false, readyStore, none, none⟩).1 rfl).1,
   ((C7_cancellation ⟨true, false, readyStore, none, none⟩).1 rfl).2.1,
   ((C7_cancellation ⟨false, true, readyStore, some [], none⟩).2 rfl (by decide) rfl rfl).1,
   ((C7_cancellation ⟨false, true, readyStore, some [], none⟩).2 rfl (by decide) rfl rfl).2.2.1⟩

/-- C8: when the delegated thickness/DVH computation raises `TypeError`
(modelled by `calcDvh = none`), the failure is caught and logged with the
"dataset may be incomplete" message, `start` returns `None` (falsy)
without raising, the CSV file is neither created nor modified, and the
store is left as it was; only the two pre-computation progress reports
were emitted. -/
theorem C8_type_error_caught : ∀ a : StartArgs,
    a.flag1 = false → isReady a.store = true → a.calcDvh = none →
    (start a).ret = PyRet.none ∧ (start a).fs = a.fs ∧ (start a).store = a.store ∧
    (start a).progress = [msg40, msg60] ∧ (start a).logs = [calcErrMsg] := by
  intro a h1 h2 h3
  simp [start, h1, h2, h3]

/-- Witness for C8 at a concrete failing Ready run. -/
theorem C8_witness :
    (start ⟨false, false, readyStore, none, none⟩).ret = PyRet.none ∧
    (start ⟨false, false, readyStore, none, none⟩).fs = none ∧
    (start ⟨false, false, readyStore, none, none⟩).logs = [calcErrMsg] :=
  ⟨(C8_type_error_caught ⟨false, false, readyStore, none, none⟩ rfl (by decide) rfl).1,
   (C8_type_error_caught ⟨false, false, readyStore, none, none⟩ rfl (by decide) rfl).2.1,
   (C8_type_error_caught ⟨false, false, readyStore, none, none⟩ rfl (by decide) rfl).2.2.2.2⟩

/-- C9: an unreadable candidate file during discovery is logged with an
"ERROR: Cannot read file" line and skipped while the enumeration of the
remaining files proceeds to the same two dicts (discovery is a total
function — it never raises because of the failure), and a directory with
no matching files yields two empty dicts rather than an exception. -/
theorem C9_read_failure_skipped :
    (∀ (l1 : List Entry) (e : Entry) (l2 : List Entry) (i : ℕ),
      passes e = true → e.read = none →
      (gdAux (l1 ++ e :: l2) i).readData = (gdAux (l1 ++ l2) i).readData ∧
      (gdAux (l1 ++ e :: l2) i).fileNames = (gdAux (l1 ++ l2) i).fileNames ∧
      ("ERROR: Cannot read file " ++ e.path) ∈ (gdAux (l1 ++ e :: l2) i).logs) ∧
    get_datasets [] = ⟨[], [], []⟩ ∧
    (∀ entries : List Entry, (∀ e ∈ entries, passes e = false) →
      (get_datasets entries).readData = [] ∧ (get_datasets entries).fileNames = []) := by
  refine ⟨gd_skip_unreadable, rfl, ?_⟩
  intro entries h
  have hall : ∀ e ∈ sortEntries entries, passes e = false := fun e he =>
    h e ((mem_sortEntries entries).mp he)
  rw [show get_datasets entries = gdAux (sortEntries entries) 0 from rfl,
      gd_all_unmatched (sortEntries entries) 0 hall]
  exact ⟨rfl, rfl⟩

/-- Witness for C9 at a concrete unreadable file. -/
theorem C9_witness :
    (gdAux ([] ++ badEntry :: []) 0).readData = (gdAux ([] ++ []) 0).readData ∧
    ("ERROR: Cannot read file " ++ badEntry.path) ∈ (gdAux ([] ++ badEntry :: []) 0).logs :=
  ⟨(C9_read_failure_skipped.1 [] badEntry [] 0 (by decide) rfl).1,
   (C9_read_failure_skipped.1 [] badEntry [] 0 (by decide) rfl).2.2⟩

/-- C10: `start` never returns a truthy value — it returns `False` exactly
when the interrupt flag is observed at one of the two checkpoints and
`None` otherwise (on completion, on the caught `TypeError`, and on the
NotReady no-op alike), so the caller cannot distinguish successful
completion from the NotReady or Failed outcomes by the return value. -/
theorem C10_return_never_truthy : ∀ a : StartArgs,
    truthy (start a).ret = false ∧
    ((start a).ret = PyRet.bool false ↔
      (a.flag1 = true ∨ (a.flag1 = false ∧ isReady a.store = true ∧
        a.calcDvh.isSome = true ∧ a.flag2 = true))) ∧
    ((start a).ret = PyRet.none ↔
      ¬ (a.flag1 = true ∨ (a.flag1 = false ∧ isReady a.store = true ∧
        a.calcDvh.isSome = true ∧ a.flag2 = true))) := by
  intro a
  cases h1 : a.flag1 <;> cases h2 : isReady a.store <;> cases h3 : a.calcDvh <;>
    cases h4 : a.flag2 <;> simp [start, truthy, h1, h2, h3, h4]
